import Mathlib

/-!
Verification development for the darwin-cli dataset download pipeline
(`darwin/dataset/download_manager.py`, `darwin/dataset/utils.py`,
`darwin/exceptions.py`).

The Python functions are shallowly embedded as executable Lean functions.
Machine `int`s are modelled as `Int`/`Nat` (no overflow is relevant here),
Python exceptions as explicit error values, and side effects (network
requests, sleeps, file writes, directory creation) as explicit event
records threaded through the functions.  Python `dict`s are modelled as
insertion-ordered association lists, matching CPython's guaranteed
iteration order.
-/

namespace DarwinCli

open List

/-! ## Data model (`darwin/datatypes.py` constructor call sites, spec §3)

`darwin/datatypes.py` itself is not part of the provided sources; the two
record types below are reconstructed from their positional constructor
calls in `_parse_manifests` —
`ManifestItem(int(frame), None, segment_int, visible, float(timestamp), visible_frame_index)`
and `SegmentManifest(slot=…, segment=…, total_frames=…, items=…)` — and
from the field list in spec §3.  The `float(timestamp)` conversion is kept
abstract: the timestamp is carried as its raw decoded token, since no
claim inspects it. -/

/-- One decoded manifest line `frame:segment:visibility:timestamp`.
The `int(...)` conversions applied by `_parse_manifests` are taken as
given, so the fields are already numeric; the timestamp token is carried
verbatim. -/
structure ManifestLine where
  frame : Int
  segment : Int
  visibility : Int
  timestamp : String
deriving Repr, DecidableEq

/-- `darwin.datatypes.ManifestItem` (see module header note). -/
structure ManifestItem where
  frame : Int
  absolute_frame : Option Nat
  segment : Int
  visibility : Bool
  timestamp : String
  visible_frame : Option Nat
deriving Repr, DecidableEq

/-- `darwin.datatypes.SegmentManifest` (see module header note). -/
structure SegmentManifest where
  slot : String
  segment : Int
  total_frames : Nat
  items : List ManifestItem
deriving Repr, DecidableEq

/-! ## Manifest Assembler (`_parse_manifests`, download_manager.py:650-683) -/

/-- The `ManifestItem` built for one manifest line, given the current value
of the shared `visible_frame_index` counter.  Mirrors the two constructor
calls in the loop body of `_parse_manifests`: the source tests
`bool(int(visibility))`, i.e. any non-zero visibility field counts as
visible. -/
def lineToItem (l : ManifestLine) (vfi : Nat) : ManifestItem :=
  if l.visibility ≠ 0 then
    { frame := l.frame, absolute_frame := none, segment := l.segment, visibility := true,
      timestamp := l.timestamp, visible_frame := some vfi }
  else
    { frame := l.frame, absolute_frame := none, segment := l.segment, visibility := false,
      timestamp := l.timestamp, visible_frame := none }

/-- Insertion-ordered dictionary update used for `all_manifests`: a new
segment key is appended at the end (CPython dict insertion order); an
existing key has the item appended to its list.  Mirrors
`if segment_int not in all_manifests: all_manifests[segment_int] = []`
followed by `all_manifests[segment_int].append(...)`. -/
def insertManifestItem : List (Int × List ManifestItem) → Int → ManifestItem →
    List (Int × List ManifestItem)
  | [], seg, it => [(seg, [it])]
  | (s, its) :: rest, seg, it =>
      if s = seg then (s, its ++ [it]) :: rest
      else (s, its) :: insertManifestItem rest seg it

/-- The line-reading loop of `_parse_manifests`: every line of every
manifest file, in file order, is decoded and inserted into the
segment-keyed map, threading the shared `visible_frame_index` counter. -/
def buildManifestMap :
    List ManifestLine → Nat → List (Int × List ManifestItem) → List (Int × List ManifestItem)
  | [], _, acc => acc
  | l :: rest, vfi, acc =>
      buildManifestMap rest (if l.visibility ≠ 0 then vfi + 1 else vfi)
        (insertManifestItem acc l.segment (lineToItem l vfi))

/-- The segment-wrapping loop of `_parse_manifests`: iterate the map in
dict order, sort each segment's items by `frame` ascending (Python's
stable sort), and wrap into a `SegmentManifest`.  Note that the source
does *not* sort the segments themselves, despite its comment. -/
def mkSegments (m : List (Int × List ManifestItem)) (slot : String) : List SegmentManifest :=
  m.map fun p =>
    let sorted := List.insertionSort (fun a b => a.frame ≤ b.frame) p.2
    { slot := slot, segment := p.1, total_frames := sorted.length, items := sorted }

/-- The absolute-frame assignment inner loop: items of one segment receive
consecutive counter values starting from `k`. -/
def assignItemsAbs : List ManifestItem → Nat → List ManifestItem
  | [], _ => []
  | it :: rest, k => { it with absolute_frame := some k } :: assignItemsAbs rest (k + 1)

/-- The absolute-frame assignment outer loop: the counter runs across all
items of all segments in the list's order. -/
def assignSegmentsAbs : List SegmentManifest → Nat → List SegmentManifest
  | [], _ => []
  | s :: rest, k =>
      { s with items := assignItemsAbs s.items k } :: assignSegmentsAbs rest (k + s.items.length)

/-- `_parse_manifests(paths, slot)`.  The input is the decoded line lists
of the downloaded manifest files, in download order; the line-splitting
and `int`/`float` conversions are taken as given (see `ManifestLine`). -/
def parseManifests (files : List (List ManifestLine)) (slot : String) : List SegmentManifest :=
  assignSegmentsAbs (mkSegments (buildManifestMap files.flatten 0 []) slot) 0

/-- All items of all segments, in the assembler's output order. -/
def allItems (segs : List SegmentManifest) : List ManifestItem :=
  (segs.map (·.items)).flatten

/-- The `visible_frame` values of the visible items, in order. -/
def visOf (its : List ManifestItem) : List (Option Nat) :=
  (its.filter (·.visibility)).map (·.visible_frame)

/-- The items created for a line list in line order, threading the shared
visible counter: the reference sequence against which the grouped map is
compared. -/
def mkItemsInOrder : List ManifestLine → Nat → List ManifestItem
  | [], _ => []
  | l :: rest, vfi =>
      lineToItem l vfi :: mkItemsInOrder rest (if l.visibility ≠ 0 then vfi + 1 else vfi)

/-- Concatenation of all item lists of an insertion-ordered segment map. -/
def joinedItems (m : List (Int × List ManifestItem)) : List ManifestItem :=
  (m.map (·.2)).flatten

/-- Total number of items over a segment list. -/
def totalItems (segs : List SegmentManifest) : Nat :=
  (segs.map (·.items.length)).sum

/-! ## Paths, URLs and responses -/

/-- A filesystem path: parent directory components plus the final
component.  Directory paths are plain component lists (`List String`). -/
structure FilePath' where
  dir : List String
  name : String
deriving Repr, DecidableEq

/-- A URL together with its `urllib.parse.urlparse(url).path` component;
the parse itself is the Python standard library's (an external
collaborator). -/
structure Url where
  raw : String
  path : String
deriving Repr, DecidableEq

/-- `url.path.rsplit("/", 1)[-1]`: the last path segment — everything
after the final `/`, or the whole path when it contains no slash. -/
def urlLastSegment (u : Url) : String :=
  String.mk (((u.path.toList.reverse).takeWhile (fun c => c ≠ '/')).reverse)

/-- `pathlib` suffix of a file name: the part from the last dot, provided
that dot is neither the first nor the last character of the name. -/
def nameSuffix (name : String) : String :=
  let cs := name.toList
  let idxs := (List.range cs.length).filter (fun i => cs[i]? = some '.')
  match idxs.getLast? with
  | some i => if 0 < i ∧ i < cs.length - 1 then String.mk (cs.drop i) else ""
  | none => ""

/-- `Path.with_suffix("")`: drop the suffix from the final component. -/
def withSuffixEmpty (p : FilePath') : FilePath' :=
  { p with
    name := String.mk (p.name.toList.take (p.name.toList.length - (nameSuffix p.name).length)) }

/-- An HTTP response as observed by the download code: its status code,
whether `has_json_content_type(response)` holds, and — when the body is a
JSON object — its optional `"urls"` array. -/
structure HttpResponse where
  statusCode : Nat
  jsonContentType : Bool
  urls : Option (List Url)
deriving Repr, DecidableEq

/-- `requests.Response.ok`: true iff `raise_for_status()` would not raise,
i.e. the status code is outside 400–599. -/
def HttpResponse.ok (r : HttpResponse) : Bool :=
  r.statusCode < 400 ∨ 600 ≤ r.statusCode

/-- Python exception values raised by the download pipeline, distinguished
by type.  `missingDependency` models `darwin.exceptions.MissingDependency`
(a `DarwinException` subclass imported by `download_manager.py`; its class
declaration file is not among the provided sources, so the constructor is
modelled from the spec as a distinguishable "missing dependency" error
type).  The remaining constructors model the anonymous `Exception` /
`ValueError` raises in `download_manager.py`. -/
inductive DarwinError
  | missingDependency (msg : String)
  | valueError (msg : String)
  | requestFailed (url : String) (status : Nat)
  | malformedResponse
  | timeout (url : String)
deriving Repr, DecidableEq

/-! ## Fetch Layer: `_download_image` (download_manager.py:475-506) -/

/-- One iteration's view of the poll loop in `_download_image`: the
response obtained by `requests.get` and the wall-clock `time.time()`
value (in whole seconds) the loop observes afterwards. -/
structure PollAttempt where
  response : HttpResponse
  now : Nat
deriving Repr, DecidableEq

/-- How `_download_image` finished.  `wroteSingle` (`_write_file`) and
`wroteMultiple` (`_fetch_multiple_files`) are the only outcomes that touch
the destination; `skippedExisting`, `fatalStatus` and `timedOut` perform
no write.  `pollExhausted` is a modelling artifact marking that the
supplied attempt list ran out while the real loop would keep polling. -/
inductive DownloadOutcome
  | skippedExisting
  | wroteSingle
  | wroteMultiple
  | fatalStatus (code : Nat)
  | timedOut
  | pollExhausted
deriving Repr, DecidableEq

/-- Observable trace of one `_download_image` call: how it ended, how many
network requests it made, and how many `time.sleep(1)` calls it made. -/
structure DownloadTrace where
  outcome : DownloadOutcome
  requests : Nat
  sleeps : Nat
deriving Repr, DecidableEq

/-- The `while True` poll loop of `_download_image`, with the branch order
of the source: JSON-ok response → `_fetch_multiple_files`; ok response →
`_write_file`; `400 <= status <= 499` → raise; `time.time() - start > 60`
→ raise timeout; otherwise `time.sleep(1)` and retry. -/
def downloadImageLoop (start : Nat) : List PollAttempt → Nat → Nat → DownloadTrace
  | [], reqs, slps => ⟨.pollExhausted, reqs, slps⟩
  | a :: rest, reqs, slps =>
      if a.response.ok ∧ a.response.jsonContentType then ⟨.wroteMultiple, reqs + 1, slps⟩
      else if a.response.ok then ⟨.wroteSingle, reqs + 1, slps⟩
      else if 400 ≤ a.response.statusCode ∧ a.response.statusCode ≤ 499 then
        ⟨.fatalStatus a.response.statusCode, reqs + 1, slps⟩
      else if a.now - start > 60 then ⟨.timedOut, reqs + 1, slps⟩
      else downloadImageLoop start rest (reqs + 1) (slps + 1)

/-- `_download_image(url, path, api_key, slot)`: if the destination
already exists, return immediately; otherwise run the poll loop.  `start`
is `time.time()` at entry.  (The choice of `Authorization` header for
URLs containing `"token"` and the optional RG16 post-write transform do
not alter the control flow and are modelled separately.) -/
def downloadImage (pathExists : Bool) (start : Nat) (attempts : List PollAttempt) :
    DownloadTrace :=
  if pathExists then ⟨.skippedExisting, 0, 0⟩
  else downloadImageLoop start attempts 0 0

/-! ## Fetch Layer: `_fetch_multiple_files` (download_manager.py:514-533) -/

/-- Observable effects of `_fetch_multiple_files`: directories created,
files written (in order), and the exception raised, if any. -/
structure MultiFetchResult where
  mkdirs : List FilePath'
  writes : List FilePath'
  error : Option DarwinError
deriving Repr, DecidableEq

/-- The per-URL loop of `_fetch_multiple_files`: derive the sub-file name
from the URL's last path segment, fetch it, and `_write_file` it into the
directory; a failing sub-response raises immediately. -/
def fetchFilesLoop (subFetch : Url → HttpResponse) (dirDir : List String) :
    List Url → List FilePath' → List FilePath' × Option DarwinError
  | [], writes => (writes.reverse, none)
  | u :: rest, writes =>
      let filePath : FilePath' := ⟨dirDir, urlLastSegment u⟩
      let r := subFetch u
      if r.ok then fetchFilesLoop subFetch dirDir rest (filePath :: writes)
      else (writes.reverse, some (.requestFailed u.raw r.statusCode))

/-- `_fetch_multiple_files(path, response)`: require the `"urls"` key,
strip the destination's extension to get a directory, create it, and
fetch every listed URL into it.  `subFetch` is the network oracle for the
per-URL `requests.get`. -/
def fetchMultipleFiles (path : FilePath') (response : HttpResponse)
    (subFetch : Url → HttpResponse) : MultiFetchResult :=
  match response.urls with
  | none => ⟨[], [], some .malformedResponse⟩
  | some urls =>
      let dirPath := withSuffixEmpty path
      let r := fetchFilesLoop subFetch (dirPath.dir ++ [dirPath.name]) urls []
      ⟨[dirPath], r.1, r.2⟩

/-! ## Video Segment Extractor (`_extract_frames_from_segment`,
download_manager.py:567-593) -/

/-- One `cap.read()` result: the success flag and the decoded frame
(abstracted to a numeric payload).  OpenCV's `VideoCapture.read` returns
`(False, None)` at end of stream; reading past the supplied list models
exactly that. -/
structure ReadResult where
  success : Bool
  frame : Option Nat
deriving Repr, DecidableEq

/-- CPython `dict` insert with replacement: a fresh key is appended, an
existing key keeps its position and has its value replaced (as in
`dict([(k, v) for …])`). -/
def dictInsertReplace : List (Int × Option Nat) → Int → Option Nat → List (Int × Option Nat)
  | [], k, v => [(k, v)]
  | (k', v') :: rest, k, v =>
      if k' = k then (k', v) :: rest else (k', v') :: dictInsertReplace rest k v

/-- `frames_to_extract = dict([(item.frame, item.visible_frame) for item
in manifest.items if item.visibility])`. -/
def framesToExtract (items : List ManifestItem) : List (Int × Option Nat) :=
  items.foldl
    (fun m it => if it.visibility then dictInsertReplace m it.frame it.visible_frame else m) []

/-- `k in d` / `d[k]` on the insertion-ordered dict model. -/
def dictLookup : List (Int × Option Nat) → Int → Option (Option Nat)
  | [], _ => none
  | (k', v) :: rest, k => if k' = k then some v else dictLookup rest k

/-- `d.pop(k)`'s removal effect on the insertion-ordered dict model. -/
def dictRemove : List (Int × Option Nat) → Int → List (Int × Option Nat)
  | [], _ => []
  | (k', v) :: rest, k => if k' = k then rest else (k', v) :: dictRemove rest k

/-- How `_extract_frames_from_segment` finished: a normal return, or a
raised exception. -/
inductive ExtractOutcome
  | finished
  | raised (e : DarwinError)
deriving Repr, DecidableEq

/-- Observable result of `_extract_frames_from_segment`: the frames
written to disk (as `(visible_frame, decoded payload)` pairs, in write
order — each is written to `<parent>/<visible_frame:07d>.png`), the
entries of `frames_to_extract` still pending when the function ended, and
how it ended. -/
structure ExtractResult where
  writes : List (Option Nat × Nat)
  pending : List (Int × Option Nat)
  outcome : ExtractOutcome
deriving Repr, DecidableEq

/-- The decode loop of `_extract_frames_from_segment`, in source branch
order: `if frame is None: break` (end of stream), `if not success: raise
ValueError(...)`, then the pending-set lookup, write, early `break` once
the pending set empties, and `frame_index += 1`.  (The write call is
`cv2.imwrite`, although only `VideoCapture` was imported — the name
`cv2` is unbound at that line in the provided source; the write effect
modelled here is the intended one, and no claim exercises that line's
name resolution.) -/
def extractLoop : List ReadResult → List (Int × Option Nat) → Nat → List (Option Nat × Nat) →
    ExtractResult
  | [], pending, _, writes => ⟨writes.reverse, pending, .finished⟩
  | r :: rest, pending, frameIndex, writes =>
      match r.frame with
      | none => ⟨writes.reverse, pending, .finished⟩
      | some f =>
          if r.success = false then
            ⟨writes.reverse, pending,
              .raised (.valueError ("Failed to read frame " ++ toString frameIndex))⟩
          else
            match dictLookup pending (Int.ofNat frameIndex) with
            | some vf =>
                let pending' := dictRemove pending (Int.ofNat frameIndex)
                let writes' := (vf, f) :: writes
                if pending' = [] then ⟨writes'.reverse, pending', .finished⟩
                else extractLoop rest pending' (frameIndex + 1) writes'
            | none => extractLoop rest pending (frameIndex + 1) writes

/-- The `MissingDependency` message raised when `cv2` cannot be
imported. -/
def missingOpenCVMsg : String :=
  "Missing Dependency: OpenCV required for Video Extraction. Install with `pip install darwin-py\\[ocv]`"

/-- `_extract_frames_from_segment(path, manifest)`.  `cv2Available` models
whether `from cv2 import VideoCapture` succeeds; `opened` models
`cap.isOpened()` for the downloaded segment file; `reads` is the decoded
frame stream. -/
def extractFramesFromSegment (cv2Available : Bool) (opened : Bool) (reads : List ReadResult)
    (manifest : SegmentManifest) : ExtractResult :=
  if cv2Available then
    if opened then extractLoop reads (framesToExtract manifest.items) 0 []
    else ⟨[], framesToExtract manifest.items, .finished⟩
  else ⟨[], [], .raised (.missingDependency missingOpenCVMsg)⟩

/-! ## Execution Engine (`exhaust_generator`, dataset/utils.py:165-199) -/

/-- `_f(x)`: executing one lazy task.  A task is a zero-argument callable
whose call either returns a response or raises; the raise is modelled as
`Except.error`. -/
def runTask {ρ ε : Type} (t : Unit → Except ε ρ) : Except ε ρ := t ()

/-- The `multi_threaded=True` branch of `exhaust_generator`: every task is
submitted with `pool.apply_async`, `pool.close()`/`pool.join()` wait for
the whole batch, and `responses = [r.get() for r in responses if
r.successful()]` keeps only the successful results.  Returns (number of
tasks run to completion, surviving responses in submission order). -/
def exhaustGeneratorParallel {ρ ε : Type} (tasks : List (Unit → Except ε ρ)) :
    Nat × List ρ :=
  let results := tasks.map runTask
  (results.length,
    results.filterMap fun r => match r with | .ok v => some v | .error _ => none)

/-- The `multi_threaded=False` branch of `exhaust_generator`:
`for f in track(progress, ...): responses.append(_f(f))` — there is no
exception handling, so a raising task propagates out of the loop and the
remaining tasks never run.  Returns the propagated-or-collected result and
the number of tasks that were executed. -/
def exhaustGeneratorSequential {ρ ε : Type} :
    List (Unit → Except ε ρ) → Except ε (List ρ) × Nat
  | [] => (.ok [], 0)
  | t :: rest =>
      match runTask t with
      | .error e => (.error e, 1)
      | .ok r =>
          let res := exhaustGeneratorSequential rest
          (match res.1 with
           | .ok rs => .ok (r :: rs)
           | .error e => .error e, res.2 + 1)

/-! ## Download Task Planner (download_manager.py:99-365)

The slot/item descriptors come from `darwin.datatypes` (not among the
provided sources); the structures below carry exactly the fields the
planner reads, reconstructed from those read sites and spec §3. -/

/-- One entry of `slot.source_files`. -/
structure SourceFile where
  url : String
  file_name : String
deriving Repr, DecidableEq

/-- `darwin.datatypes.Slot`, restricted to the fields the planner reads. -/
structure Slot where
  name : Option String
  type : String
  source_files : List SourceFile
  frame_urls : Option (List String)
  frame_manifest : Option (List String)
  segments : Option (List String)
  metadata : List (String × String)
deriving Repr, DecidableEq

/-- `darwin.datatypes.AnnotationFile`, restricted to the fields the
planner reads.  `remote_path` is carried as its path components already
relative to the anchor (`Path(sub_path).relative_to(Path(sub_path).anchor)`). -/
structure AnnFile where
  filename : String
  remote_path : List String
  slots : List Slot
deriving Repr, DecidableEq

/-- `sanitize_filename` (dataset/utils.py:534-543): replace each of
`< > " / \ | ? *` by `_`, and also `:` on non-Unix-like systems. -/
def sanitize_filename (unixLike : Bool) (filename : String) : String :=
  let chars : List Char :=
    ['<', '>', '"', '/', '\\', '|', '?', '*'] ++ (if unixLike then [] else [':'])
  filename.map (fun c => if c ∈ chars then '_' else c)

/-- Python `f"{n:07d}"` for a non-negative `n`. -/
def pad7 (n : Nat) : String :=
  let s := toString n
  String.mk (List.replicate (7 - s.length) '0') ++ s

/-- Whether `_download_image` selects the RG16-to-grayscale post-write
transform for a slot: `slot and slot.metadata and
slot.metadata.get("colorspace") == "RG16"`. -/
def rg16Selected (slot : Option Slot) : Bool :=
  match slot with
  | some s => s.metadata.lookup "colorspace" == some "RG16"
  | none => false

/-- A planned deferred download action (the `functools.partial` closures),
tagged by which fetch-and-write routine it will call, together with its
destination path. -/
inductive PlannedTask
  | downloadExtractSegment (url : String) (dest : FilePath') (manifest : SegmentManifest)
  | downloadFrame (url : String) (dest : FilePath')
  | downloadFileWithTrace (url : String) (dest : FilePath')
deriving Repr, DecidableEq

/-- The destination path of a planned task. -/
def PlannedTask.dest : PlannedTask → FilePath'
  | .downloadExtractSegment _ d _ => d
  | .downloadFrame _ d => d
  | .downloadFileWithTrace _ d => d

/-- The long-video loop shared by both strategies: one
segment-download-and-extract task per segment manifest, pairing
`segment_manifests[index]` with `slot.segments[index]["url"]` and writing
the scratch container to `<videoPath>/.{index:07d}.ts`.  Raises when
`slot.segments` is `None` (source check) or the index is out of range
(Python `IndexError`). -/
def segmentTasks (videoPath : List String) (segs : Option (List String)) :
    List SegmentManifest → Nat → Except String (List PlannedTask)
  | [], _ => .ok []
  | mans :: rest, index =>
      match segs with
      | none => .error "No segments found"
      | some urls =>
          match urls[index]? with
          | none => .error "IndexError: list index out of range"
          | some u =>
              match segmentTasks videoPath segs rest (index + 1) with
              | .error e => .error e
              | .ok ts =>
                  .ok (.downloadExtractSegment u ⟨videoPath, "." ++ pad7 index ++ ".ts"⟩ mans :: ts)

/-- The `for i, frame_url in enumerate(...)` loop: one `_download_image`
task per frame URL, writing to `<videoPath>/<i:07d>.png`. -/
def frameTasks (videoPath : List String) : List String → Nat → List PlannedTask
  | [], _ => []
  | u :: rest, i => .downloadFrame u ⟨videoPath, pad7 i ++ ".png"⟩ :: frameTasks videoPath rest (i + 1)

/-- The per-slot body of `_download_all_slots_from_json_annotation`:
video-frames slots plan segment or frame tasks under
`<slotPath>/sections/`; still-image slots plan one traced file task per
source file directly in `<slotPath>`. -/
def slotTasksAllSlots (gm : Slot → List SegmentManifest) (unixLike : Bool) (videoFrames : Bool)
    (slotPath : List String) (slot : Slot) : Except String (List PlannedTask) :=
  if videoFrames ∧ slot.type ≠ "image" then
    let videoPath := slotPath ++ ["sections"]
    if (slot.frame_urls.getD []) = [] then
      segmentTasks videoPath slot.segments (gm slot) 0
    else
      .ok (frameTasks videoPath (slot.frame_urls.getD []) 0)
  else
    .ok (slot.source_files.map
      fun up => .downloadFileWithTrace up.url ⟨slotPath, sanitize_filename unixLike up.file_name⟩)

/-- The slot loop of `_download_all_slots_from_json_annotation`: every
slot needs a (truthy) name, and plans into
`<parent>/<sanitized filename>/<sanitized slot name>/`. -/
def allSlotsTasks (gm : Slot → List SegmentManifest) (unixLike : Bool) (filename : String)
    (parentPath : List String) (videoFrames : Bool) :
    List Slot → Except String (List PlannedTask)
  | [] => .ok []
  | slot :: rest =>
      if slot.name.getD "" = "" then .error "Slot name is required to download all slots"
      else
        match slotTasksAllSlots gm unixLike videoFrames
            (parentPath ++ [sanitize_filename unixLike filename,
              sanitize_filename unixLike (slot.name.getD "")]) slot with
        | .error e => .error e
        | .ok ts =>
            match allSlotsTasks gm unixLike filename parentPath videoFrames rest with
            | .error e => .error e
            | .ok rest' => .ok (ts ++ rest')

/-- `_download_all_slots_from_json_annotation`. -/
def downloadAllSlots (gm : Slot → List SegmentManifest) (unixLike : Bool) (annf : AnnFile)
    (parentPath : List String) (videoFrames : Bool) : Except String (List PlannedTask) :=
  allSlotsTasks gm unixLike annf.filename parentPath videoFrames annf.slots

/-- `_download_single_slot_from_json_annotation`: operates on `slots[0]`
only.  `annStem` is `annotation_path.stem`. -/
def downloadSingleSlot (gm : Slot → List SegmentManifest) (unixLike : Bool) (annf : AnnFile)
    (parentPath : List String) (annStem : String) (videoFrames : Bool) (useFolders : Bool) :
    Except String (List PlannedTask) :=
  match annf.slots with
  | [] => .error "IndexError: list index out of range"
  | slot :: _ =>
      if videoFrames ∧ slot.type ≠ "image" then
        let videoPath := parentPath ++ [annStem]
        if (slot.frame_urls.getD []) = [] then
          segmentTasks videoPath slot.segments (gm slot) 0
        else
          .ok (frameTasks videoPath (slot.frame_urls.getD []) 0)
      else
        match slot.source_files with
        | [] => .ok []
        | image :: _ =>
            let filename :=
              if ¬ useFolders then annStem ++ nameSuffix image.file_name
              else image.file_name
            .ok [.downloadFileWithTrace image.url
              ⟨parentPath,
                sanitize_filename unixLike (if filename = "" then annf.filename else filename)⟩]

/-- `slot.name or "0"`: the slot sort key. -/
def slotKey (s : Slot) : String :=
  if s.name.getD "" = "" then "0" else s.name.getD ""

/-- `annotation.slots.sort(key=lambda slot: slot.name or "0")` (a stable
sort on the key). -/
def sortSlots (slots : List Slot) : List Slot :=
  List.insertionSort (fun a b => slotKey a ≤ slotKey b) slots

/-- `_download_image_from_json_annotation`: compute the parent directory,
sort the slots, and dispatch on `ignore_slots` / `force_slots`. -/
def downloadImageFromJsonAnn (gm : Slot → List SegmentManifest) (unixLike : Bool)
    (annf : AnnFile) (annStem : String) (imagePath : List String)
    (useFolders videoFrames forceSlots ignoreSlots : Bool) : Except String (List PlannedTask) :=
  let parentPath := imagePath ++ (if useFolders then annf.remote_path else [])
  let annf' := { annf with slots := sortSlots annf.slots }
  if annf'.slots.length > 0 then
    if ignoreSlots then
      downloadSingleSlot gm unixLike annf' parentPath annStem videoFrames useFolders
    else if forceSlots then downloadAllSlots gm unixLike annf' parentPath videoFrames
    else downloadSingleSlot gm unixLike annf' parentPath annStem videoFrames useFolders
  else .ok []

/-- The escalation loop of `download_all_images_from_annotations`
(download_manager.py:111-117): while collecting the annotations to
download, `force_slots` is set whenever an item has more than one slot or
any slot has more than one source file.  The flag is only read after this
loop, so its final value applies to every annotation of the batch. -/
def escalateForceSlots (annfs : List AnnFile) (forceSlots : Bool) : Bool :=
  annfs.foldl
    (fun fs a =>
      let fs' := if a.slots.length > 1 then true else fs
      a.slots.foldl (fun acc s => if s.source_files.length > 1 then true else acc) fs')
    forceSlots

/-- The plan-building loop of `download_all_images_from_annotations`
(download_manager.py:128-142): plan every annotation of the batch with
the final, escalated `force_slots` value.  Each batch entry is
(`annotation_path.stem`, parsed annotation); annotations skipped by the
`force_replace` check never enter the batch. -/
def planBatch (gm : Slot → List SegmentManifest) (unixLike : Bool) (imagesPath : List String)
    (useFolders videoFrames fs ignoreSlots : Bool) :
    List (String × AnnFile) → Except String (List PlannedTask)
  | [] => .ok []
  | (stem, a) :: rest =>
      match downloadImageFromJsonAnn gm unixLike a stem imagesPath useFolders videoFrames
          fs ignoreSlots with
      | .error e => .error e
      | .ok ts =>
          match planBatch gm unixLike imagesPath useFolders videoFrames fs ignoreSlots rest with
          | .error e => .error e
          | .ok rest' => .ok (ts ++ rest')

/-- `download_all_images_from_annotations`, restricted to its planning
behaviour: escalate `force_slots` over the whole batch, then build every
annotation's task list with the escalated flag. -/
def downloadAllImagesPlan (gm : Slot → List SegmentManifest) (unixLike : Bool)
    (annfs : List (String × AnnFile)) (imagesPath : List String)
    (forceSlots ignoreSlots useFolders videoFrames : Bool) : Except String (List PlannedTask) :=
  planBatch gm unixLike imagesPath useFolders videoFrames
    (escalateForceSlots (annfs.map (·.2)) forceSlots) ignoreSlots annfs

/-- `dir` lies inside the directory `pre` (possibly equal to it). -/
def UnderDir (pre dir : List String) : Prop :=
  ∃ rest, dir = pre ++ rest

/-- A concrete two-annotation batch: `f1` has two single-file image slots
(triggering the escalation), `f2` has one slot with one source file. -/
def sampleBatch : List (String × AnnFile) :=
  [("f1", ⟨"f1.png", [],
      [⟨some "a", "image", [⟨"u1", "a.png"⟩], none, none, none, []⟩,
        ⟨some "b", "image", [⟨"u2", "b.png"⟩], none, none, none, []⟩]⟩),
    ("f2", ⟨"f2.png", [],
      [⟨some "c", "image", [⟨"u3", "c.png"⟩], none, none, none, []⟩]⟩)]

/-! ## Lemmas about the Manifest Assembler -/

theorem visOf_cons (it : ManifestItem) (rest : List ManifestItem) :
    visOf (it :: rest) = (if it.visibility then [it.visible_frame] else []) ++ visOf rest := by
  by_cases h : it.visibility <;> simp [visOf, List.filter_cons, h]

theorem visOf_append (a b : List ManifestItem) : visOf (a ++ b) = visOf a ++ visOf b := by
  simp [visOf, List.filter_append]

theorem joinedItems_insert (m : List (Int × List ManifestItem)) (seg : Int) (it : ManifestItem) :
    (joinedItems (insertManifestItem m seg it)).Perm (joinedItems m ++ [it]) := by
  induction m with
  | nil => simp [insertManifestItem, joinedItems]
  | cons p rest ih =>
      obtain ⟨s, its⟩ := p
      by_cases h : s = seg
      · simp only [insertManifestItem, if_pos h, joinedItems, List.map_cons, List.flatten_cons]
        calc (its ++ [it]) ++ (rest.map (·.2)).flatten
            = its ++ ([it] ++ (rest.map (·.2)).flatten) := by simp [List.append_assoc]
          _ ~ its ++ ((rest.map (·.2)).flatten ++ [it]) :=
              List.Perm.append_left its List.perm_append_comm
          _ = (its ++ (rest.map (·.2)).flatten) ++ [it] := by simp [List.append_assoc]
      · simp only [insertManifestItem, if_neg h, joinedItems, List.map_cons, List.flatten_cons]
        calc its ++ joinedItems (insertManifestItem rest seg it)
            ~ its ++ (joinedItems rest ++ [it]) := List.Perm.append_left its ih
          _ = (its ++ joinedItems rest) ++ [it] := by simp [List.append_assoc]

theorem joinedItems_buildManifestMap (lines : List ManifestLine) :
    ∀ (vfi : Nat) (acc : List (Int × List ManifestItem)),
    (joinedItems (buildManifestMap lines vfi acc)).Perm
      (joinedItems acc ++ mkItemsInOrder lines vfi) := by
  induction lines with
  | nil => intro vfi acc; simp [buildManifestMap, mkItemsInOrder]
  | cons l rest ih =>
      intro vfi acc
      simp only [buildManifestMap, mkItemsInOrder]
      calc joinedItems (buildManifestMap rest (if l.visibility ≠ 0 then vfi + 1 else vfi)
              (insertManifestItem acc l.segment (lineToItem l vfi)))
          ~ joinedItems (insertManifestItem acc l.segment (lineToItem l vfi)) ++
              mkItemsInOrder rest (if l.visibility ≠ 0 then vfi + 1 else vfi) := ih _ _
        _ ~ (joinedItems acc ++ [lineToItem l vfi]) ++
              mkItemsInOrder rest (if l.visibility ≠ 0 then vfi + 1 else vfi) :=
            List.Perm.append_right _ (joinedItems_insert acc l.segment (lineToItem l vfi))
        _ = joinedItems acc ++ (lineToItem l vfi ::
              mkItemsInOrder rest (if l.visibility ≠ 0 then vfi + 1 else vfi)) := by
            simp [List.append_assoc]

theorem allItems_mkSegments (m : List (Int × List ManifestItem)) (slot : String) :
    (allItems (mkSegments m slot)).Perm (joinedItems m) := by
  induction m with
  | nil => simp [mkSegments, allItems, joinedItems]
  | cons p rest ih =>
      simp only [mkSegments, allItems, joinedItems, List.map_cons, List.flatten_cons] at *
      exact List.Perm.append (List.perm_insertionSort _ p.2) ih

theorem visOf_assignItemsAbs (its : List ManifestItem) :
    ∀ k : Nat, visOf (assignItemsAbs its k) = visOf its := by
  induction its with
  | nil => intro k; rfl
  | cons it rest ih =>
      intro k
      have hv : ({ it with absolute_frame := some k } : ManifestItem).visibility =
          it.visibility := rfl
      simp [assignItemsAbs, visOf_cons, hv, ih]

theorem length_assignItemsAbs (its : List ManifestItem) :
    ∀ k : Nat, (assignItemsAbs its k).length = its.length := by
  induction its with
  | nil => intro k; rfl
  | cons it rest ih => intro k; simp [assignItemsAbs, ih]

theorem absFrames_assignItemsAbs (its : List ManifestItem) :
    ∀ k : Nat, (assignItemsAbs its k).map (·.absolute_frame) =
      (List.range' k its.length).map some := by
  induction its with
  | nil => intro k; rfl
  | cons it rest ih =>
      intro k
      simp [assignItemsAbs, ih, List.range'_succ]

theorem allItems_assignSegmentsAbs_cons (s : SegmentManifest) (rest : List SegmentManifest)
    (k : Nat) : allItems (assignSegmentsAbs (s :: rest) k) =
      assignItemsAbs s.items k ++ allItems (assignSegmentsAbs rest (k + s.items.length)) := by
  simp [assignSegmentsAbs, allItems]

theorem absFrames_assignSegmentsAbs (segs : List SegmentManifest) :
    ∀ k : Nat, (allItems (assignSegmentsAbs segs k)).map (·.absolute_frame) =
      (List.range' k (totalItems segs)).map some := by
  induction segs with
  | nil => intro k; simp [assignSegmentsAbs, allItems, totalItems]
  | cons s rest ih =>
      intro k
      rw [allItems_assignSegmentsAbs_cons]
      have hranges : List.range' k s.items.length ++
          List.range' (k + s.items.length) (totalItems rest) =
          List.range' k (totalItems (s :: rest)) := by
        have h := List.range'_append k s.items.length (totalItems rest) 1
        simp only [Nat.one_mul, totalItems] at h
        simp only [totalItems, List.map_cons, List.sum_cons]
        rw [Nat.add_comm s.items.length, ← h]
      rw [List.map_append, absFrames_assignItemsAbs, ih, ← List.map_append, hranges]

theorem visOf_assignSegmentsAbs (segs : List SegmentManifest) :
    ∀ k : Nat, visOf (allItems (assignSegmentsAbs segs k)) = visOf (allItems segs) := by
  induction segs with
  | nil => intro k; rfl
  | cons s rest ih =>
      intro k
      rw [allItems_assignSegmentsAbs_cons]
      have h : allItems (s :: rest) = s.items ++ allItems rest := by simp [allItems]
      rw [h, visOf_append, visOf_append, visOf_assignItemsAbs, ih]

theorem visOf_perm {l₁ l₂ : List ManifestItem} (h : l₁.Perm l₂) : (visOf l₁).Perm (visOf l₂) :=
  (h.filter _).map _

theorem visOf_mkItemsInOrder (lines : List ManifestLine) :
    ∀ vfi : Nat, visOf (mkItemsInOrder lines vfi) =
      (List.range' vfi ((lines.filter (fun l => l.visibility ≠ 0)).length)).map some := by
  induction lines with
  | nil => intro vfi; rfl
  | cons l rest ih =>
      intro vfi
      by_cases h : l.visibility ≠ 0
      · have hvis : (lineToItem l vfi).visibility = true := by simp [lineToItem, h]
        have hvf : (lineToItem l vfi).visible_frame = some vfi := by simp [lineToItem, h]
        simp [mkItemsInOrder, h, visOf_cons, hvis, hvf, ih, List.filter_cons,
          List.range'_succ]
      · have hvis : (lineToItem l vfi).visibility = false := by simp [lineToItem, h]
        simp [mkItemsInOrder, h, visOf_cons, hvis, ih, List.filter_cons]

/-! ## Claim theorems for the Manifest Assembler -/

/-- C2: for every manifest input, the `absolute_frame` values over all
items of all segments, taken in the assembler's output order, are exactly
`0, 1, 2, …` — strictly increasing, starting at 0, counting every item
whether visible or not. -/
theorem absolute_frame_sequence_is_range (files : List (List ManifestLine)) (slot : String) :
    (allItems (parseManifests files slot)).map (·.absolute_frame) =
      (List.range (allItems (parseManifests files slot)).length).map some := by
  have h := absFrames_assignSegmentsAbs (mkSegments (buildManifestMap files.flatten 0 []) slot) 0
  have hlen : (allItems (parseManifests files slot)).length =
      totalItems (mkSegments (buildManifestMap files.flatten 0 []) slot) := by
    have hc := congrArg List.length h
    simpa [parseManifests] using hc
  show (allItems (assignSegmentsAbs (mkSegments (buildManifestMap files.flatten 0 []) slot) 0)).map
      (·.absolute_frame) = _
  rw [List.range_eq_range', hlen]
  exact h

/-- C3: the `visible_frame` indices assigned across all segments of the
slot are exactly `{0, 1, …, m-1}` where `m` is the number of lines with
`visibility = 1`: the counter starts at 0, increments once per visible
line, and is shared across segments.  Stated both as a permutation with
`[some 0, …, some (m-1)]` (so each index occurs exactly once) and as the
resulting set equality. -/
theorem visible_index_continuity (files : List (List ManifestLine)) (slot : String)
    (h : ∀ l ∈ files.flatten, l.visibility = 0 ∨ l.visibility = 1) :
    (visOf (allItems (parseManifests files slot))).Perm
      ((List.range ((files.flatten.filter (fun l => l.visibility = 1)).length)).map some) ∧
    (visOf (allItems (parseManifests files slot))).toFinset =
      ((List.range ((files.flatten.filter (fun l => l.visibility = 1)).length)).map
        some).toFinset := by
  have hcnt : files.flatten.filter (fun l => l.visibility ≠ 0) =
      files.flatten.filter (fun l => l.visibility = 1) := by
    apply List.filter_congr
    intro x hx
    rcases h x hx with h' | h' <;> simp [h']
  have hperm : (visOf (allItems (parseManifests files slot))).Perm
      ((List.range ((files.flatten.filter (fun l => l.visibility = 1)).length)).map some) := by
    have e1 : visOf (allItems (parseManifests files slot)) =
        visOf (allItems (mkSegments (buildManifestMap files.flatten 0 []) slot)) :=
      visOf_assignSegmentsAbs _ 0
    have p2 : (visOf (allItems (mkSegments (buildManifestMap files.flatten 0 []) slot))).Perm
        (visOf (joinedItems (buildManifestMap files.flatten 0 []))) :=
      visOf_perm (allItems_mkSegments _ slot)
    have p3 : (visOf (joinedItems (buildManifestMap files.flatten 0 []))).Perm
        (visOf (mkItemsInOrder files.flatten 0)) := by
      have hb := joinedItems_buildManifestMap files.flatten 0 []
      simpa [joinedItems] using visOf_perm hb
    have e4 : visOf (mkItemsInOrder files.flatten 0) =
        (List.range' 0 ((files.flatten.filter (fun l => l.visibility ≠ 0)).length)).map some :=
      visOf_mkItemsInOrder files.flatten 0
    rw [e1]
    refine (p2.trans p3).trans ?_
    rw [e4, hcnt, ← List.range_eq_range']
  exact ⟨hperm, List.toFinset_eq_of_perm _ _ hperm⟩

/-- C1 (counterexample evaluation): `_parse_manifests` does *not* return
its segments in ascending segment-number order.  On a manifest whose first
line belongs to segment 1 and whose second line belongs to segment 0, the
output segment order is the dict insertion order `[1, 0]`, not the sorted
order — contradicting both the claim and the source's own comment
"Create a list of segments, sorted by segment number". -/
theorem parse_manifests_segment_order_counterexample :
    ((parseManifests [[⟨0, 1, 1, "0.0"⟩, ⟨0, 0, 1, "0.0"⟩]] "0").map (·.segment) = [1, 0]) ∧
    ¬ ((parseManifests [[⟨0, 1, 1, "0.0"⟩, ⟨0, 0, 1, "0.0"⟩]] "0").map (·.segment)).Sorted
      (· ≤ ·) := by
  constructor
  · decide
  · decide

/-- C3 witness: the continuity property at a concrete three-line,
two-segment manifest input with two visible lines. -/
theorem visible_index_continuity_witness :
    (∀ l ∈ ([[⟨0, 0, 1, "t0"⟩, ⟨1, 0, 0, "t1"⟩], [⟨0, 1, 1, "t2"⟩]] :
        List (List ManifestLine)).flatten, l.visibility = 0 ∨ l.visibility = 1) ∧
    ((visOf (allItems (parseManifests [[⟨0, 0, 1, "t0"⟩, ⟨1, 0, 0, "t1"⟩], [⟨0, 1, 1, "t2"⟩]]
        "s"))).Perm
      ((List.range ((([[⟨0, 0, 1, "t0"⟩, ⟨1, 0, 0, "t1"⟩], [⟨0, 1, 1, "t2"⟩]] :
        List (List ManifestLine)).flatten.filter
          (fun l => l.visibility = 1)).length)).map some) ∧
    (visOf (allItems (parseManifests [[⟨0, 0, 1, "t0"⟩, ⟨1, 0, 0, "t1"⟩], [⟨0, 1, 1, "t2"⟩]]
        "s"))).toFinset =
      ((List.range ((([[⟨0, 0, 1, "t0"⟩, ⟨1, 0, 0, "t1"⟩], [⟨0, 1, 1, "t2"⟩]] :
        List (List ManifestLine)).flatten.filter
          (fun l => l.visibility = 1)).length)).map some).toFinset) :=
  ⟨by decide, visible_index_continuity [[⟨0, 0, 1, "t0"⟩, ⟨1, 0, 0, "t1"⟩], [⟨0, 1, 1, "t2"⟩]]
    "s" (by decide)⟩

/-! ## Claim theorems for the Fetch Layer -/

/-- C4: when the destination path already exists on disk,
`_download_image` returns success immediately: zero network requests, zero
sleeps, no write outcome — so re-running it after completion is a no-op,
whatever the network would have answered. -/
theorem download_image_skips_existing (start : Nat) (attempts : List PollAttempt) :
    downloadImage true start attempts = ⟨.skippedExisting, 0, 0⟩ :=
  rfl

/-- C5: the poll loop of `_download_image` (for a non-existing
destination) (a) raises immediately on a 400–499 response, consuming no
further attempts and adding no sleep; (b) on any other failing response
within the 60-second window, sleeps once and retries; (c) on any other
failing response past the 60-second window, raises the timeout error. -/
theorem download_image_poll_loop_behaviour (start : Nat) (a : PollAttempt)
    (rest : List PollAttempt) (reqs slps : Nat) :
    (400 ≤ a.response.statusCode → a.response.statusCode ≤ 499 →
      downloadImageLoop start (a :: rest) reqs slps =
        ⟨.fatalStatus a.response.statusCode, reqs + 1, slps⟩) ∧
    (500 ≤ a.response.statusCode → a.response.statusCode ≤ 599 → a.now - start ≤ 60 →
      downloadImageLoop start (a :: rest) reqs slps =
        downloadImageLoop start rest (reqs + 1) (slps + 1)) ∧
    (500 ≤ a.response.statusCode → a.response.statusCode ≤ 599 → a.now - start > 60 →
      downloadImageLoop start (a :: rest) reqs slps = ⟨.timedOut, reqs + 1, slps⟩) := by
  refine ⟨fun h1 h2 => ?_, fun h1 h2 h3 => ?_, fun h1 h2 h3 => ?_⟩ <;>
    have hok : a.response.ok = false := by
      simp only [HttpResponse.ok, decide_eq_false_iff_not, not_or]
      omega
  · simp only [downloadImageLoop, hok, Bool.false_eq_true, false_and, if_false]
    simp [h1, h2]
  · have hnotfatal : ¬ (400 ≤ a.response.statusCode ∧ a.response.statusCode ≤ 499) := by omega
    have hnott : ¬ (a.now - start > 60) := by omega
    simp only [downloadImageLoop, hok, Bool.false_eq_true, false_and, if_false]
    simp [hnotfatal, hnott]
  · have hnotfatal : ¬ (400 ≤ a.response.statusCode ∧ a.response.statusCode ≤ 499) := by omega
    simp only [downloadImageLoop, hok, Bool.false_eq_true, false_and, if_false]
    simp [hnotfatal, h3]

/-- C5 witness: the three poll-loop branches at concrete attempts — a 404
raising fatally with no sleep, a 503 at 10 s sleeping and retrying, and a
503 at 70 s raising the timeout. -/
theorem download_image_poll_loop_behaviour_witness :
    ((400 : Nat) ≤ 404 ∧ (404 : Nat) ≤ 499 ∧
      downloadImageLoop 0 [⟨⟨404, false, none⟩, 5⟩] 0 0 = ⟨.fatalStatus 404, 1, 0⟩) ∧
    ((500 : Nat) ≤ 503 ∧ (503 : Nat) ≤ 599 ∧ (10 : Nat) - 0 ≤ 60 ∧
      downloadImageLoop 0 [⟨⟨503, false, none⟩, 10⟩] 0 0 = downloadImageLoop 0 [] 1 1) ∧
    ((500 : Nat) ≤ 503 ∧ (503 : Nat) ≤ 599 ∧ (70 : Nat) - 0 > 60 ∧
      downloadImageLoop 0 [⟨⟨503, false, none⟩, 70⟩] 0 0 = ⟨.timedOut, 1, 0⟩) :=
  ⟨⟨by decide, by decide,
      (download_image_poll_loop_behaviour 0 ⟨⟨404, false, none⟩, 5⟩ [] 0 0).1
        (by decide) (by decide)⟩,
    ⟨by decide, by decide, by decide,
      (download_image_poll_loop_behaviour 0 ⟨⟨503, false, none⟩, 10⟩ [] 0 0).2.1
        (by decide) (by decide) (by decide)⟩,
    ⟨by decide, by decide, by decide,
      (download_image_poll_loop_behaviour 0 ⟨⟨503, false, none⟩, 70⟩ [] 0 0).2.2
        (by decide) (by decide) (by decide)⟩⟩

theorem fetchFilesLoop_all_ok (subFetch : Url → HttpResponse) (dirDir : List String)
    (urls : List Url) : ∀ acc : List FilePath', (∀ u ∈ urls, (subFetch u).ok = true) →
    fetchFilesLoop subFetch dirDir urls acc =
      (acc.reverse ++ urls.map (fun u => (⟨dirDir, urlLastSegment u⟩ : FilePath')), none) := by
  induction urls with
  | nil => intro acc _; simp [fetchFilesLoop]
  | cons u rest ih =>
      intro acc h
      have hu : (subFetch u).ok = true := h u (List.mem_cons_self u rest)
      have hrest : ∀ v ∈ rest, (subFetch v).ok = true := fun v hv => h v (List.mem_cons_of_mem u hv)
      simp [fetchFilesLoop, hu, ih _ hrest]

/-- C6: `_fetch_multiple_files` on a JSON response: without a `"urls"` key
it raises the malformed-response error having written nothing; with one
(and sub-fetches succeeding) it creates exactly the directory obtained by
stripping the destination's extension, writes one file per listed URL
named by the URL's last path segment inside that directory, and none of
the written paths is the original destination path. -/
theorem fetch_multiple_files_behaviour (path : FilePath') (response : HttpResponse)
    (subFetch : Url → HttpResponse) :
    (response.urls = none →
      fetchMultipleFiles path response subFetch =
        ⟨[], [], some .malformedResponse⟩) ∧
    (∀ urls, response.urls = some urls → (∀ u ∈ urls, (subFetch u).ok = true) →
      fetchMultipleFiles path response subFetch =
        ⟨[withSuffixEmpty path],
          urls.map (fun u =>
            ⟨(withSuffixEmpty path).dir ++ [(withSuffixEmpty path).name], urlLastSegment u⟩),
          none⟩ ∧
      ∀ w ∈ (fetchMultipleFiles path response subFetch).writes, w ≠ path) := by
  constructor
  · intro h
    simp [fetchMultipleFiles, h]
  · intro urls hsome hok
    have hd : (withSuffixEmpty path).dir = path.dir := rfl
    have heq : fetchMultipleFiles path response subFetch =
        ⟨[withSuffixEmpty path],
          urls.map (fun u =>
            ⟨(withSuffixEmpty path).dir ++ [(withSuffixEmpty path).name], urlLastSegment u⟩),
          none⟩ := by
      simp [fetchMultipleFiles, hsome, fetchFilesLoop_all_ok subFetch _ urls [] hok]
    refine ⟨heq, ?_⟩
    intro w hw
    rw [heq] at hw
    simp only [List.mem_map] at hw
    obtain ⟨u, _, rfl⟩ := hw
    intro hcontra
    have hdir := congrArg FilePath'.dir hcontra
    simp only [hd] at hdir
    have := congrArg List.length hdir
    simp at this

/-- C6 witness: a two-URL indirection response for destination
`d/example.dcm` yields the directory `d/example` containing `a.dcm` and
`b.dcm`, and nothing at `d/example.dcm`; a JSON response without `"urls"`
raises the malformed-response error. -/
theorem fetch_multiple_files_behaviour_witness :
    ((none : Option (List Url)) = none →
      fetchMultipleFiles ⟨["d"], "example.dcm"⟩ ⟨200, true, none⟩ (fun _ => ⟨200, false, none⟩) =
        ⟨[], [], some .malformedResponse⟩) ∧
    (fetchMultipleFiles ⟨["d"], "example.dcm"⟩
        ⟨200, true, some [⟨"http://x/a.dcm", "/a.dcm"⟩, ⟨"http://x/b.dcm", "/b.dcm"⟩]⟩
        (fun _ => ⟨200, false, none⟩) =
      ⟨[⟨["d"], "example"⟩], [⟨["d", "example"], "a.dcm"⟩, ⟨["d", "example"], "b.dcm"⟩], none⟩) ∧
    (∀ w ∈ (fetchMultipleFiles ⟨["d"], "example.dcm"⟩
        ⟨200, true, some [⟨"http://x/a.dcm", "/a.dcm"⟩, ⟨"http://x/b.dcm", "/b.dcm"⟩]⟩
        (fun _ => ⟨200, false, none⟩)).writes, w ≠ (⟨["d"], "example.dcm"⟩ : FilePath')) := by
  refine ⟨(fetch_multiple_files_behaviour ⟨["d"], "example.dcm"⟩ ⟨200, true, none⟩
      (fun _ => ⟨200, false, none⟩)).1, ?_, ?_⟩
  · have h := (fetch_multiple_files_behaviour ⟨["d"], "example.dcm"⟩
      ⟨200, true, some [⟨"http://x/a.dcm", "/a.dcm"⟩, ⟨"http://x/b.dcm", "/b.dcm"⟩]⟩
      (fun _ => ⟨200, false, none⟩)).2
      [⟨"http://x/a.dcm", "/a.dcm"⟩, ⟨"http://x/b.dcm", "/b.dcm"⟩] rfl (by decide)
    rw [h.1]
    rfl
  · exact ((fetch_multiple_files_behaviour ⟨["d"], "example.dcm"⟩
      ⟨200, true, some [⟨"http://x/a.dcm", "/a.dcm"⟩, ⟨"http://x/b.dcm", "/b.dcm"⟩]⟩
      (fun _ => ⟨200, false, none⟩)).2
      [⟨"http://x/a.dcm", "/a.dcm"⟩, ⟨"http://x/b.dcm", "/b.dcm"⟩] rfl (by decide)).2

/-! ## Claim theorems for the Video Segment Extractor -/

/-- C7 (divergence evaluation): when the decoded stream ends (two frames)
while a visible frame (segment-local frame 5) is still pending,
`_extract_frames_from_segment` does *not* raise: `cap.read()` returns
`(False, None)` at end of stream, so `if frame is None: break` runs before
the `raise ValueError` line can, and the function returns normally with
the pending entry still unextracted.  The claim (and spec §4.3/§7) says a
data-integrity error is raised here. -/
theorem extract_exhaustion_returns_silently :
    extractFramesFromSegment true true [⟨true, some 11⟩, ⟨true, some 22⟩]
        ⟨"0", 0, 1, [⟨5, none, 0, true, "0.0", some 0⟩]⟩ =
      ⟨[], [(5, some 0)], .finished⟩ := by
  decide

/-- C8: when `from cv2 import VideoCapture` fails,
`_extract_frames_from_segment` raises the distinguishable
`MissingDependency` error (not an opaque failure), carrying the
actionable installation message. -/
theorem extract_missing_dependency (opened : Bool) (reads : List ReadResult)
    (manifest : SegmentManifest) :
    extractFramesFromSegment false opened reads manifest =
      ⟨[], [], .raised (.missingDependency missingOpenCVMsg)⟩ ∧
    missingOpenCVMsg = "Missing Dependency: OpenCV required for Video Extraction. " ++
      "Install with `pip install darwin-py\\[ocv]`" :=
  ⟨rfl, rfl⟩

/-! ## Claim theorems for the Execution Engine -/

theorem filterMap_ok_length {ρ ε : Type} (rs : List (Except ε ρ)) :
    (rs.filterMap (fun r => match r with | .ok v => some v | .error _ => none)).length
      + (rs.filter (fun r => !r.isOk)).length = rs.length := by
  induction rs with
  | nil => rfl
  | cons r rest ih =>
      cases r with
      | ok v =>
          have hh : ((Except.ok v : Except ε ρ).isOk : Bool) = true := rfl
          simp only [List.filterMap_cons, List.filter_cons, hh, Bool.not_true,
            Bool.false_eq_true, if_false, List.length_cons]
          omega
      | error e =>
          have hh : ((Except.error e : Except ε ρ).isOk : Bool) = false := rfl
          simp only [List.filterMap_cons, List.filter_cons, hh, Bool.not_false, if_true,
            List.length_cons]
          omega

theorem sequential_propagates_first_error {ρ ε : Type} (pre : List (Unit → Except ε ρ)) :
    ∀ (task : Unit → Except ε ρ) (post : List (Unit → Except ε ρ)) (e : ε),
    (∀ p ∈ pre, (runTask p).isOk = true) → runTask task = .error e →
    exhaustGeneratorSequential (pre ++ task :: post) = (.error e, pre.length + 1) := by
  induction pre with
  | nil =>
      intro task post e _ herr
      simp [exhaustGeneratorSequential, herr]
  | cons p pre' ih =>
      intro task post e hok herr
      have hp : (runTask p).isOk = true := hok p (List.mem_cons_self p pre')
      obtain ⟨v, hv⟩ : ∃ v, runTask p = .ok v := by
        cases hpv : runTask p with
        | ok v => exact ⟨v, rfl⟩
        | error e' => rw [hpv] at hp; simp [Except.isOk, Except.toBool] at hp
      have hrest : ∀ q ∈ pre', (runTask q).isOk = true :=
        fun q hq => hok q (List.mem_cons_of_mem p hq)
      have := ih task post e hrest herr
      simp [exhaustGeneratorSequential, hv, this]

/-- C9 (counterexample): five tasks where the third always raises.  The
sequential blocking mode executes only 3 of the 5 tasks and propagates the
exception instead of capturing it — one task's failure aborts its
siblings, contradicting the claim for the `parallel=false` mode.  (The
parallel mode, by contrast, completes all 5 and returns the 4 successful
responses — and returns no error tally.) -/
theorem exhaust_generator_sequential_aborts_counterexample :
    exhaustGeneratorSequential
        [fun _ => (.ok 1 : Except String Nat), fun _ => .ok 2, fun _ => .error "boom",
          fun _ => .ok 4, fun _ => .ok 5] = (.error "boom", 3) ∧
    exhaustGeneratorParallel
        [fun _ => (.ok 1 : Except String Nat), fun _ => .ok 2, fun _ => .error "boom",
          fun _ => .ok 4, fun _ => .ok 5] = (5, [1, 2, 4, 5]) :=
  ⟨rfl, rfl⟩

/-- C9 (amended): only the *parallel* blocking mode isolates failures —
it runs the full batch, captures each task's exception, excludes failed
tasks from the returned responses, and the error count is derivable as
batch size minus number of responses (no explicit tally is returned).  In
the sequential mode, the first failing task's exception propagates and
aborts the remaining tasks. -/
theorem exhaust_generator_isolation_amended {ρ ε : Type} (tasks : List (Unit → Except ε ρ)) :
    (exhaustGeneratorParallel tasks).1 = tasks.length ∧
    (exhaustGeneratorParallel tasks).2 =
      (tasks.map runTask).filterMap
        (fun r => match r with | .ok v => some v | .error _ => none) ∧
    (exhaustGeneratorParallel tasks).2.length
      + ((tasks.map runTask).filter (fun r => !r.isOk)).length = tasks.length ∧
    (∀ (pre : List (Unit → Except ε ρ)) (task : Unit → Except ε ρ)
        (post : List (Unit → Except ε ρ)) (e : ε), tasks = pre ++ task :: post →
      (∀ p ∈ pre, (runTask p).isOk = true) → runTask task = .error e →
      exhaustGeneratorSequential tasks = (.error e, pre.length + 1)) := by
  refine ⟨by simp [exhaustGeneratorParallel], rfl, ?_, ?_⟩
  · simpa [exhaustGeneratorParallel] using filterMap_ok_length (tasks.map runTask)
  · intro pre task post e htasks hok herr
    rw [htasks]
    exact sequential_propagates_first_error pre task post e hok herr

/-! ## Claim theorems for the Download Task Planner -/

theorem innerFold_source_files_true (slots : List Slot) :
    slots.foldl (fun acc s => if s.source_files.length > 1 then true else acc) true = true := by
  induction slots with
  | nil => rfl
  | cons s rest ih => simp only [List.foldl_cons, ite_self]; exact ih

theorem innerFold_source_files_triggered (slots : List Slot) :
    ∀ (acc : Bool) (s : Slot), s ∈ slots → 1 < s.source_files.length →
    slots.foldl (fun acc s => if s.source_files.length > 1 then true else acc) acc = true := by
  induction slots with
  | nil => intro acc s hs; exact absurd hs (List.not_mem_nil s)
  | cons hd rest ih =>
      intro acc s hs hlen
      rcases List.mem_cons.mp hs with rfl | hmem
      · simp only [List.foldl_cons, if_pos hlen]
        exact innerFold_source_files_true rest
      · simp only [List.foldl_cons]
        exact ih _ s hmem hlen

theorem escalateForceSlots_step (a : AnnFile) (rest : List AnnFile) (fs : Bool) :
    escalateForceSlots (a :: rest) fs = escalateForceSlots rest
      (a.slots.foldl (fun acc s => if s.source_files.length > 1 then true else acc)
        (if a.slots.length > 1 then true else fs)) := by
  simp [escalateForceSlots]

theorem escalateForceSlots_of_true (annfs : List AnnFile) :
    escalateForceSlots annfs true = true := by
  induction annfs with
  | nil => rfl
  | cons a rest ih =>
      rw [escalateForceSlots_step, ite_self, innerFold_source_files_true]
      exact ih

theorem escalateForceSlots_triggered (annfs : List AnnFile) :
    ∀ forceSlots : Bool,
    (∃ a ∈ annfs, 1 < a.slots.length ∨ ∃ s ∈ a.slots, 1 < s.source_files.length) →
    escalateForceSlots annfs forceSlots = true := by
  induction annfs with
  | nil =>
      intro fs h
      obtain ⟨a, ha, _⟩ := h
      exact absurd ha (List.not_mem_nil a)
  | cons a rest ih =>
      intro fs h
      obtain ⟨x, hx, hprop⟩ := h
      rcases List.mem_cons.mp hx with rfl | hmem
      · rcases hprop with hlen | ⟨s, hs, hsl⟩
        · rw [escalateForceSlots_step, if_pos hlen, innerFold_source_files_true]
          exact escalateForceSlots_of_true rest
        · rw [escalateForceSlots_step, innerFold_source_files_triggered x.slots _ s hs hsl]
          exact escalateForceSlots_of_true rest
      · rw [escalateForceSlots_step]
        exact ih _ ⟨x, hmem, hprop⟩

theorem dispatcher_forced_uses_all_slots (gm : Slot → List SegmentManifest) (unixLike : Bool)
    (annf : AnnFile) (annStem : String) (imagePath : List String)
    (useFolders videoFrames : Bool) (hne : annf.slots ≠ []) :
    downloadImageFromJsonAnn gm unixLike annf annStem imagePath useFolders videoFrames
        true false =
      downloadAllSlots gm unixLike { annf with slots := sortSlots annf.slots }
        (imagePath ++ (if useFolders then annf.remote_path else [])) videoFrames := by
  have hlen : 0 < (sortSlots annf.slots).length := by
    rw [sortSlots, List.length_insertionSort]
    exact List.length_pos.mpr hne
  simp [downloadImageFromJsonAnn, hlen]

theorem segmentTasks_dest (videoPath : List String) (segs : Option (List String)) :
    ∀ (mans : List SegmentManifest) (index : Nat) (tasks : List PlannedTask),
    segmentTasks videoPath segs mans index = .ok tasks →
    ∀ t ∈ tasks, t.dest.dir = videoPath := by
  intro mans
  induction mans with
  | nil =>
      intro index tasks h t ht
      simp only [segmentTasks] at h
      cases h
      exact absurd ht (List.not_mem_nil t)
  | cons m rest ih =>
      intro index tasks h t ht
      cases hsegs : segs with
      | none => rw [hsegs] at h; simp [segmentTasks] at h
      | some urls =>
          rw [hsegs] at h
          simp only [segmentTasks] at h
          cases hidx : urls[index]? with
          | none => rw [hidx] at h; simp at h
          | some u =>
              rw [hidx] at h
              cases hrec : segmentTasks videoPath (some urls) rest (index + 1) with
              | error e => rw [hrec] at h; simp at h
              | ok ts =>
                  rw [hrec] at h
                  simp only [Except.ok.injEq] at h
                  subst h
                  rcases List.mem_cons.mp ht with rfl | hmem
                  · rfl
                  · rw [← hsegs] at hrec
                    exact ih (index + 1) ts hrec t hmem

theorem frameTasks_dest (videoPath : List String) :
    ∀ (urls : List String) (i : Nat) (t : PlannedTask), t ∈ frameTasks videoPath urls i →
    t.dest.dir = videoPath := by
  intro urls
  induction urls with
  | nil => intro i t ht; exact absurd ht (List.not_mem_nil t)
  | cons u rest ih =>
      intro i t ht
      rcases List.mem_cons.mp ht with rfl | hmem
      · rfl
      · exact ih (i + 1) t hmem

theorem slotTasksAllSlots_dest (gm : Slot → List SegmentManifest) (unixLike : Bool)
    (videoFrames : Bool) (slotPath : List String) (slot : Slot) (tasks : List PlannedTask)
    (h : slotTasksAllSlots gm unixLike videoFrames slotPath slot = .ok tasks) :
    ∀ t ∈ tasks, UnderDir slotPath t.dest.dir := by
  intro t ht
  unfold slotTasksAllSlots at h
  by_cases hv : videoFrames ∧ slot.type ≠ "image"
  · rw [if_pos hv] at h
    by_cases hf : (slot.frame_urls.getD []) = []
    · rw [if_pos hf] at h
      exact ⟨["sections"], segmentTasks_dest _ _ _ _ _ h t ht⟩
    · rw [if_neg hf] at h
      simp only [Except.ok.injEq] at h
      subst h
      exact ⟨["sections"], frameTasks_dest _ _ _ t ht⟩
  · rw [if_neg hv] at h
    simp only [Except.ok.injEq] at h
    subst h
    obtain ⟨up, _, rfl⟩ := List.mem_map.mp ht
    exact ⟨[], by simp [PlannedTask.dest]⟩

theorem allSlotsTasks_dest (gm : Slot → List SegmentManifest) (unixLike : Bool)
    (filename : String) (parentPath : List String) (videoFrames : Bool) :
    ∀ (slots : List Slot) (tasks : List PlannedTask),
    allSlotsTasks gm unixLike filename parentPath videoFrames slots = .ok tasks →
    ∀ t ∈ tasks, ∃ slot ∈ slots, slot.name.getD "" ≠ "" ∧
      UnderDir (parentPath ++ [sanitize_filename unixLike filename,
        sanitize_filename unixLike (slot.name.getD "")]) t.dest.dir := by
  intro slots
  induction slots with
  | nil =>
      intro tasks h t ht
      simp only [allSlotsTasks] at h
      cases h
      exact absurd ht (List.not_mem_nil t)
  | cons slot rest ih =>
      intro tasks h t ht
      simp only [allSlotsTasks] at h
      by_cases hname : slot.name.getD "" = ""
      · rw [if_pos hname] at h; simp at h
      · rw [if_neg hname] at h
        cases hslot : slotTasksAllSlots gm unixLike videoFrames
            (parentPath ++ [sanitize_filename unixLike filename,
              sanitize_filename unixLike (slot.name.getD "")]) slot with
        | error e => rw [hslot] at h; simp at h
        | ok ts =>
            rw [hslot] at h
            cases hrest : allSlotsTasks gm unixLike filename parentPath videoFrames rest with
            | error e => rw [hrest] at h; simp at h
            | ok rest' =>
                rw [hrest] at h
                simp only [Except.ok.injEq] at h
                subst h
                rcases List.mem_append.mp ht with hl | hr
                · exact ⟨slot, List.mem_cons_self slot rest, hname,
                    slotTasksAllSlots_dest gm unixLike videoFrames _ slot ts hslot t hl⟩
                · obtain ⟨s, hs, hrest'⟩ := ih rest' hrest t hr
                  exact ⟨s, List.mem_cons_of_mem slot hs, hrest'⟩

/-- C10: forced multi-slot planning is escalated globally.  If any
annotation of the batch has more than one slot, or any slot of any batch
annotation has more than one source file, then `force_slots` is true for
the whole batch, every annotation with slots (even one slot with one
source file) is planned by `_download_all_slots_from_json_annotation`,
and every planned task's destination lies under
`<parent>/<sanitized item filename>/<sanitized slot name>/`. -/
theorem forced_multi_slot_escalation_global (gm : Slot → List SegmentManifest)
    (unixLike : Bool) (annfs : List (String × AnnFile)) (imagesPath : List String)
    (useFolders videoFrames forceSlots : Bool)
    (htrig : ∃ p ∈ annfs, 1 < p.2.slots.length ∨ ∃ s ∈ p.2.slots, 1 < s.source_files.length) :
    escalateForceSlots (annfs.map (·.2)) forceSlots = true ∧
    ∀ p ∈ annfs, p.2.slots ≠ [] →
      (downloadImageFromJsonAnn gm unixLike p.2 p.1 imagesPath useFolders videoFrames
          (escalateForceSlots (annfs.map (·.2)) forceSlots) false =
        downloadAllSlots gm unixLike { p.2 with slots := sortSlots p.2.slots }
          (imagesPath ++ (if useFolders then p.2.remote_path else [])) videoFrames) ∧
      ∀ tasks, downloadImageFromJsonAnn gm unixLike p.2 p.1 imagesPath useFolders videoFrames
          (escalateForceSlots (annfs.map (·.2)) forceSlots) false = .ok tasks →
        ∀ t ∈ tasks, ∃ slot ∈ sortSlots p.2.slots, slot.name.getD "" ≠ "" ∧
          UnderDir ((imagesPath ++ (if useFolders then p.2.remote_path else [])) ++
            [sanitize_filename unixLike p.2.filename,
              sanitize_filename unixLike (slot.name.getD "")]) t.dest.dir := by
  have hesc : escalateForceSlots (annfs.map (·.2)) forceSlots = true := by
    apply escalateForceSlots_triggered
    obtain ⟨p, hp, hprop⟩ := htrig
    exact ⟨p.2, List.mem_map.mpr ⟨p, hp, rfl⟩, hprop⟩
  refine ⟨hesc, ?_⟩
  intro p _ hne
  rw [hesc]
  have hdisp := dispatcher_forced_uses_all_slots gm unixLike p.2 p.1 imagesPath useFolders
    videoFrames hne
  refine ⟨hdisp, ?_⟩
  intro tasks htasks t ht
  rw [hdisp] at htasks
  exact allSlotsTasks_dest gm unixLike p.2.filename _ videoFrames (sortSlots p.2.slots)
    tasks htasks t ht

/-- C10 witness: the global escalation at the concrete `sampleBatch` — the
two-slot `f1` forces the multi-slot strategy for the single-slot,
single-file `f2` as well. -/
theorem forced_multi_slot_escalation_global_witness :
    (∃ p ∈ sampleBatch, 1 < p.2.slots.length ∨ ∃ s ∈ p.2.slots, 1 < s.source_files.length) ∧
    (escalateForceSlots (sampleBatch.map (·.2)) false = true ∧
    ∀ p ∈ sampleBatch, p.2.slots ≠ [] →
      (downloadImageFromJsonAnn (fun _ => []) true p.2 p.1 ["root"] false false
          (escalateForceSlots (sampleBatch.map (·.2)) false) false =
        downloadAllSlots (fun _ => []) true { p.2 with slots := sortSlots p.2.slots }
          (["root"] ++ (if false then p.2.remote_path else [])) false) ∧
      ∀ tasks, downloadImageFromJsonAnn (fun _ => []) true p.2 p.1 ["root"] false false
          (escalateForceSlots (sampleBatch.map (·.2)) false) false = .ok tasks →
        ∀ t ∈ tasks, ∃ slot ∈ sortSlots p.2.slots, slot.name.getD "" ≠ "" ∧
          UnderDir ((["root"] ++ (if false then p.2.remote_path else [])) ++
            [sanitize_filename true p.2.filename,
              sanitize_filename true (slot.name.getD "")]) t.dest.dir) :=
  ⟨by decide, forced_multi_slot_escalation_global (fun _ => []) true sampleBatch ["root"]
    false false false (by decide)⟩

end DarwinCli
